import Mathlib

/-!
# Verification of the web-framework-benchmark analysis scripts

Shallow embedding of the two analysis scripts of the repository:

* `scripts/find-saturation.py` — ingests a k6 per-event CSV into per-second
  buckets, maps seconds onto load steps, aggregates per-step statistics
  (realized RPS, nearest-rank percentiles, error rate) and finds the
  saturation point (last compliant step, first breaching step).
* `scripts/analyze-results.py` — per-variant descriptive statistics over
  repeated benchmark runs, energy/cost-normalized efficiency metrics,
  descending rankings and the rankings-diverge hypothesis flag.

Python floats are modelled as exact rationals (`ℚ`), machine ints as `ℤ`/`ℕ`.
Python's `sorted` is modelled by `List.insertionSort (· ≤ ·)`: both are
stable ascending sorts, and the output of a stable ascending sort is
uniquely determined by the input, so the two agree on every list.  Python's
`//` on integers is `Int.fdiv` (floor division), and `int()` applied to a
float is truncation toward zero.
-/

namespace WFB

/-- Per-step aggregated statistics, mirroring the dict built at
`aggregate_by_step` (find-saturation.py lines 186–195). -/
structure StepStats where
  target_rps : Int
  rps_real   : ℚ
  p50_ms     : ℚ
  p95_ms     : ℚ
  p99_ms     : ℚ
  err_pct    : ℚ
  req_count  : Nat
  n_samples  : Nat
  deriving DecidableEq, Repr

/-- `find_saturation_point` (find-saturation.py lines 203–218): scans the
step list in order keeping `last_ok` (overwritten by every compliant step) and
`first_saturated` (set at most once). Returns `(last_ok, first_saturated)`. -/
def find_saturation_point (steps : List StepStats) (err_thr p99_thr : ℚ) :
    Option StepStats × Option StepStats :=
  steps.foldl
    (fun st s =>
      if err_thr ≤ s.err_pct ∨ p99_thr ≤ s.p99_ms then
        (st.1, if st.2 = none then some s else st.2)
      else
        (some s, st.2))
    (none, none)

/-- Boolean predicate: the step breaches a threshold (OR semantics). -/
def breachesB (err_thr p99_thr : ℚ) (s : StepStats) : Bool :=
  decide (err_thr ≤ s.err_pct ∨ p99_thr ≤ s.p99_ms)

/-- Boolean predicate: the step complies with both thresholds. -/
def compliesB (err_thr p99_thr : ℚ) (s : StepStats) : Bool :=
  decide (s.err_pct < err_thr ∧ s.p99_ms < p99_thr)

theorem complies_eq_not_breaches (e p : ℚ) (s : StepStats) :
    compliesB e p s = !(breachesB e p s) := by
  simp only [compliesB, breachesB]
  by_cases h1 : e ≤ s.err_pct <;> by_cases h2 : p ≤ s.p99_ms <;>
    simp [h1, h2, not_le.mp, le_of_not_lt, not_lt.mpr]

theorem find_saturation_point_foldl (e p : ℚ) (steps : List StepStats)
    (a1 a2 : Option StepStats) :
    steps.foldl
      (fun st s =>
        if e ≤ s.err_pct ∨ p ≤ s.p99_ms then
          (st.1, if st.2 = none then some s else st.2)
        else
          (some s, st.2))
      (a1, a2) =
    ((steps.reverse.find? (compliesB e p)).or a1,
      a2.or (steps.find? (breachesB e p))) := by
  induction steps generalizing a1 a2 with
  | nil => simp
  | cons s rest ih =>
    by_cases h : e ≤ s.err_pct ∨ p ≤ s.p99_ms
    · have hb : breachesB e p s = true := by simp [breachesB, h]
      have hc : compliesB e p s = false := by
        rw [complies_eq_not_breaches, hb]; rfl
      simp only [List.foldl_cons, if_pos h, ih]
      rw [Prod.mk.injEq]
      constructor
      · simp [List.find?_append, hc, List.find?_cons]
      · rw [List.find?_cons, hb]
        cases a2 with
        | none => simp
        | some x => simp
    · have hb : breachesB e p s = false := by simp [breachesB, h]
      have hc : compliesB e p s = true := by
        rw [complies_eq_not_breaches, hb]; rfl
      simp only [List.foldl_cons, if_neg h, ih]
      rw [Prod.mk.injEq]
      constructor
      · rw [List.reverse_cons, List.find?_append]
        cases hfind : rest.reverse.find? (compliesB e p) with
        | none => simp [List.find?_cons, hc]
        | some x => simp
      · rw [List.find?_cons, hb]

/-- **C1.** For every finite step sequence and thresholds, the saturation
detector returns `first_saturated` = the first step (in sequence order) with
`err_pct ≥ err_threshold` or `p99_ms ≥ p99_threshold` (OR semantics, `none`
when no step breaches), and `last_ok` = the last step with
`err_pct < err_threshold` and `p99_ms < p99_threshold` (`none` when no step
ever complies): `find?` over the reversed list is exactly "last in sequence
order", so a later compliant step overwrites an earlier `last_ok` even after
a breach, and the first breach is never overwritten. -/
theorem find_saturation_point_spec (steps : List StepStats) (e p : ℚ) :
    find_saturation_point steps e p =
      (steps.reverse.find? (compliesB e p), steps.find? (breachesB e p)) := by
  unfold find_saturation_point
  rw [find_saturation_point_foldl]
  simp

/-- Python's `int()` conversion of a float: truncation toward zero. -/
def ratTrunc (q : ℚ) : Int := if 0 ≤ q then ⌊q⌋ else ⌈q⌉

/-- Python's default ascending `sorted` on numbers: a stable ascending
sort. -/
def sortAsc (l : List ℚ) : List ℚ := l.insertionSort (· ≤ ·)

/-- The inner `pct` closure of `aggregate_by_step` (find-saturation.py lines
179–181), applied to the already-sorted pooled durations:
`durations_sorted[min(int(p / 100 * n), n - 1)]` — nearest-rank index,
clamped to the last index. -/
def pctOfSorted (sorted : List ℚ) (p : ℚ) : ℚ :=
  let n := sorted.length
  sorted.getD (min (ratTrunc (p / 100 * (n : ℚ))) ((n : Int) - 1)).toNat 0

/-- Nearest-rank percentile of a pooled duration sequence: sort ascending
(`durations_sorted = sorted(durations)`, line 176) then index. -/
def pct (durations : List ℚ) (p : ℚ) : ℚ :=
  pctOfSorted (sortAsc durations) p

theorem sortAsc_get_mono (l : List ℚ) (i j : Fin (sortAsc l).length)
    (hij : i ≤ j) : (sortAsc l).get i ≤ (sortAsc l).get j := by
  rcases eq_or_lt_of_le hij with h | h
  · exact h ▸ le_rfl
  · exact (List.sorted_insertionSort (· ≤ ·) l).rel_get_of_lt h

theorem pct_idx_lt (s : List ℚ) (hs : s ≠ []) (x : Int) :
    (min x ((s.length : Int) - 1)).toNat < s.length := by
  have := List.length_pos.mpr hs
  omega

/-- **C2.** For every non-empty pooled duration sequence, the nearest-rank
percentile estimator satisfies: `percentile 100` is the maximum sample,
`percentile 0` is the minimum sample, and for `0 ≤ p ≤ q ≤ 100` the
percentiles are monotonically non-decreasing. -/
theorem pct_spec (l : List ℚ) (hl : l ≠ []) :
    l.max? = some (pct l 100) ∧ l.min? = some (pct l 0) ∧
      ∀ p q : ℚ, 0 ≤ p → p ≤ q → q ≤ 100 → pct l p ≤ pct l q := by
  set s := sortAsc l with hs_def
  have hperm : s.Perm l := List.perm_insertionSort (· ≤ ·) l
  have hs : s ≠ [] := by
    intro h
    have hlen0 : l.length = 0 := by
      have hle := hperm.length_eq
      simpa [h] using hle.symm
    exact hl (List.length_eq_zero.mp hlen0)
  have hn : 0 < s.length := List.length_pos.mpr hs
  haveI : Std.Antisymm (fun a b : ℚ => a ≤ b) := ⟨fun h h' => le_antisymm h h'⟩
  -- evaluation of the indices at the three relevant percentiles
  have hidx_lt : ∀ p : ℚ,
      (min (ratTrunc (p / 100 * (s.length : ℚ))) ((s.length : Int) - 1)).toNat
        < s.length := fun p => pct_idx_lt s hs _
  have hpct_get : ∀ p : ℚ, pct l p = s.get
      ⟨(min (ratTrunc (p / 100 * (s.length : ℚ)))
          ((s.length : Int) - 1)).toNat, hidx_lt p⟩ := by
    intro p
    rw [pct, ← hs_def, pctOfSorted]
    exact List.getD_eq_get s 0 (hidx_lt p)
  have h100 : ratTrunc (100 / 100 * (s.length : ℚ)) = (s.length : Int) := by
    have harg : (100 : ℚ) / 100 * (s.length : ℚ) = ((s.length : Int) : ℚ) := by
      push_cast; ring
    rw [ratTrunc, if_pos (by positivity), harg, Int.floor_intCast]
  have hidx100 : (min (ratTrunc (100 / 100 * (s.length : ℚ)))
      ((s.length : Int) - 1)).toNat = s.length - 1 := by
    rw [h100]; omega
  have h0 : ratTrunc (0 / 100 * (s.length : ℚ)) = 0 := by
    simp [ratTrunc]
  have hidx0 : (min (ratTrunc (0 / 100 * (s.length : ℚ)))
      ((s.length : Int) - 1)).toNat = 0 := by
    rw [h0]; omega
  -- generic membership and bound facts
  have hmem : ∀ (k : Nat) (hk : k < s.length), s.get ⟨k, hk⟩ ∈ l :=
    fun k hk => hperm.mem_iff.mp (s.get_mem _ _)
  refine ⟨?_, ?_, ?_⟩
  · -- percentile 100 is the maximum
    rw [List.max?_eq_some_iff (fun a => le_refl a) max_choice
      (fun a b c => max_le_iff)]
    refine ⟨(hpct_get 100) ▸ hmem _ _, ?_⟩
    intro b hb
    obtain ⟨i, hi⟩ := List.mem_iff_get.mp (hperm.mem_iff.mpr hb)
    rw [hpct_get 100, ← hi]
    apply sortAsc_get_mono
    rw [Fin.le_def]
    simp only [Fin.val_mk]
    rw [hidx100]
    have := i.isLt
    omega
  · -- percentile 0 is the minimum
    rw [List.min?_eq_some_iff (fun a => le_refl a) min_choice
      (fun a b c => le_min_iff)]
    refine ⟨(hpct_get 0) ▸ hmem _ _, ?_⟩
    intro b hb
    obtain ⟨i, hi⟩ := List.mem_iff_get.mp (hperm.mem_iff.mpr hb)
    rw [hpct_get 0, ← hi]
    apply sortAsc_get_mono
    rw [Fin.le_def]
    simp only [Fin.val_mk]
    rw [hidx0]
    exact Nat.zero_le _
  · -- monotonicity in p
    intro p q hp hpq _
    have harg : p / 100 * (s.length : ℚ) ≤ q / 100 * (s.length : ℚ) := by
      gcongr
    have hq : (0 : ℚ) ≤ q := le_trans hp hpq
    have htr : ratTrunc (p / 100 * (s.length : ℚ)) ≤
        ratTrunc (q / 100 * (s.length : ℚ)) := by
      rw [ratTrunc, if_pos (by positivity), ratTrunc, if_pos (by positivity)]
      exact Int.floor_le_floor harg
    rw [hpct_get p, hpct_get q]
    apply sortAsc_get_mono
    rw [Fin.le_def]
    simp only [Fin.val_mk]
    omega

/-- Witness for C2 at the concrete pooled sequence `[3, 1, 2]`. -/
theorem pct_spec_witness :
    (([3, 1, 2] : List ℚ) ≠ []) ∧
      (([3, 1, 2] : List ℚ).max? = some (pct [3, 1, 2] 100) ∧
        ([3, 1, 2] : List ℚ).min? = some (pct [3, 1, 2] 0) ∧
        ∀ p q : ℚ, 0 ≤ p → p ≤ q → q ≤ 100 →
          pct [3, 1, 2] p ≤ pct [3, 1, 2] q) :=
  ⟨by decide, pct_spec [3, 1, 2] (by decide)⟩

/-- CLI parameters of find-saturation.py (`parse_args`, lines 44–57). -/
structure SatArgs where
  start_rps     : Int
  step_rps      : Int
  step_duration : Int
  ramp_duration : Int
  warmup        : Int
  err_threshold : ℚ
  p99_threshold : ℚ
  deriving DecidableEq, Repr

/-- One planned load step: the dicts appended to `steps` in
`aggregate_by_step` (find-saturation.py lines 137–151). -/
structure StepProfile where
  target_rps : Int
  t_start    : Int
  t_end      : Int
  deriving DecidableEq, Repr

instance : Inhabited StepProfile := ⟨⟨0, 0, 0⟩⟩

/-- The `while` loop of `aggregate_by_step` (lines 145–157) planning the
steps after step 0.  Fuel-based recursion: the `while` guard bounds
`target_rps` by `start_rps + 100 * step_rps` while each iteration advances
it by `step_rps`, so the loop body runs at most 100 times whenever
`step_rps ≥ 1`, exactly once when `step_rps = 0` (the mid-loop `break`
fires), and never when `step_rps < 0`; fuel 101 is therefore never
exhausted.  Python's `//` is floor division (`Int.fdiv`). -/
def genLoop (a : SatArgs) (t_min t_max : Int) :
    Nat → Int → Int → List StepProfile
  | 0, _, _ => []
  | fuel + 1, target_rps, t_offset =>
    if target_rps ≤ a.start_rps + 100 * a.step_rps then
      let t_offset2 := t_offset + a.ramp_duration
      let s : StepProfile :=
        ⟨target_rps, t_min + t_offset2, t_min + t_offset2 + a.step_duration⟩
      let t_offset3 := t_offset2 + a.step_duration
      if (t_max - t_min).fdiv (a.step_duration + a.ramp_duration) * a.step_rps
          + a.start_rps ≤ target_rps then
        [s]
      else if 100000 < target_rps + a.step_rps then
        [s]
      else
        s :: genLoop a t_min t_max fuel (target_rps + a.step_rps) t_offset3
    else []

/-- Step planning of `aggregate_by_step` (lines 132–157): step 0 covers
`[t_min + warmup, t_min + warmup + step_duration]` (the warm-up itself is
not a measurable step), then the while-loop plans the later steps starting
from `target_rps = start_rps + step_rps` and `t_offset = warmup +
step_duration`. -/
def genSteps (a : SatArgs) (t_min t_max : Int) : List StepProfile :=
  ⟨a.start_rps, t_min + a.warmup, t_min + a.warmup + a.step_duration⟩ ::
    genLoop a t_min t_max 101 (a.start_rps + a.step_rps)
      (a.warmup + a.step_duration)

theorem genLoop_getD (a : SatArgs) (t_min t_max : Int) :
    ∀ (fuel : Nat) (target t_off : Int) (i : Nat),
      i < (genLoop a t_min t_max fuel target t_off).length →
      (genLoop a t_min t_max fuel target t_off).getD i default =
        ⟨target + i * a.step_rps,
         t_min + t_off + a.ramp_duration
           + i * (a.ramp_duration + a.step_duration),
         t_min + t_off + a.ramp_duration
           + i * (a.ramp_duration + a.step_duration) + a.step_duration⟩ := by
  intro fuel
  induction fuel with
  | zero =>
    intro target t_off i h
    simp [genLoop] at h
  | succ fuel ih =>
    intro target t_off i h
    simp only [genLoop] at h ⊢
    by_cases hg : target ≤ a.start_rps + 100 * a.step_rps
    · simp only [if_pos hg] at h ⊢
      by_cases hb1 : (t_max - t_min).fdiv (a.step_duration + a.ramp_duration)
          * a.step_rps + a.start_rps ≤ target
      · simp only [if_pos hb1] at h ⊢
        cases i with
        | zero =>
          rw [List.getD_cons_zero, StepProfile.mk.injEq]
          refine ⟨by push_cast; ring, by push_cast; ring, by push_cast; ring⟩
        | succ j =>
          simp only [List.length_singleton] at h
          omega
      · simp only [if_neg hb1] at h ⊢
        by_cases hb2 : 100000 < target + a.step_rps
        · simp only [if_pos hb2] at h ⊢
          cases i with
          | zero =>
            rw [List.getD_cons_zero, StepProfile.mk.injEq]
            refine ⟨by push_cast; ring, by push_cast; ring, by push_cast; ring⟩
          | succ j =>
            simp only [List.length_singleton] at h
            omega
        · simp only [if_neg hb2] at h ⊢
          cases i with
          | zero =>
            rw [List.getD_cons_zero, StepProfile.mk.injEq]
            refine ⟨by push_cast; ring, by push_cast; ring, by push_cast; ring⟩
          | succ j =>
            simp only [List.length_cons, Nat.succ_lt_succ_iff] at h
            rw [List.getD_cons_succ,
              ih (target + a.step_rps)
                (t_off + a.ramp_duration + a.step_duration) j h,
              StepProfile.mk.injEq]
            refine ⟨by push_cast; ring, by push_cast; ring, by push_cast; ring⟩
    · simp [if_neg hg] at h

theorem genSteps_getD (a : SatArgs) (t_min t_max : Int) (i : Nat)
    (h : i < (genSteps a t_min t_max).length) :
    (genSteps a t_min t_max).getD i default =
      ⟨a.start_rps + i * a.step_rps,
       t_min + a.warmup + i * (a.step_duration + a.ramp_duration),
       t_min + a.warmup + i * (a.step_duration + a.ramp_duration)
         + a.step_duration⟩ := by
  cases i with
  | zero =>
    rw [genSteps, List.getD_cons_zero, StepProfile.mk.injEq]
    refine ⟨by push_cast; ring, by push_cast; ring, by push_cast; ring⟩
  | succ j =>
    rw [genSteps] at h
    simp only [List.length_cons, Nat.succ_lt_succ_iff] at h
    rw [genSteps, List.getD_cons_succ,
      genLoop_getD a t_min t_max 101 _ _ j h, StepProfile.mk.injEq]
    refine ⟨by push_cast; ring, by push_cast; ring, by push_cast; ring⟩

theorem genSteps_get (a : SatArgs) (t_min t_max : Int) (i : Nat)
    (h : i < (genSteps a t_min t_max).length) :
    (genSteps a t_min t_max).get ⟨i, h⟩ =
      ⟨a.start_rps + i * a.step_rps,
       t_min + a.warmup + i * (a.step_duration + a.ramp_duration),
       t_min + a.warmup + i * (a.step_duration + a.ramp_duration)
         + a.step_duration⟩ := by
  rw [← List.getD_eq_get _ default h]
  exact genSteps_getD a t_min t_max i h


/-- **C3 counterexample.** The claim quantifies over *every* rate increment,
ramp duration and step duration, but: with increment `step_rps = 0` the
generator emits two steps with the same target rate (not strictly
increasing); with `ramp_duration = 0` consecutive inclusive intervals share
a boundary second (they overlap); with a negative `step_duration` the steps
are not in increasing time order. -/
theorem genSteps_c3_counterexample :
    ((genSteps ⟨100, 0, 1, 1, 0, 1, 1000⟩ 0 100).map StepProfile.target_rps
        = [100, 100] ∧
      ¬ List.Pairwise (fun s t : StepProfile => s.target_rps < t.target_rps)
        (genSteps ⟨100, 0, 1, 1, 0, 1, 1000⟩ 0 100)) ∧
    ((genSteps ⟨200, 200, 30, 0, 0, 1, 1000⟩ 0 100).map
        (fun s => (s.t_start, s.t_end))
        = [(0, 30), (30, 60), (60, 90), (90, 120)] ∧
      (((genSteps ⟨200, 200, 30, 0, 0, 1, 1000⟩ 0 100).getD 1 default).t_start
        ≤ ((genSteps ⟨200, 200, 30, 0, 0, 1, 1000⟩ 0 100).getD 0 default).t_end)) ∧
    ((genSteps ⟨200, 200, -5, 2, 0, 1, 1000⟩ 0 100).map StepProfile.t_start
        = [0, -3] ∧
      ¬ List.Pairwise (fun s t : StepProfile => s.t_start ≤ t.t_start)
        (genSteps ⟨200, 200, -5, 2, 0, 1, 1000⟩ 0 100)) := by
  decide

/-- **C3 (amended).** For every input with a positive rate increment, a
positive ramp duration and a non-negative step duration, the generated
steps' target rates form a strictly increasing arithmetic sequence with
common difference `step_rps`, each step's inclusive interval `[t_start,
t_end]` is well-formed, and the intervals are pairwise non-overlapping and
produced in increasing time order (each step ends strictly before any later
step starts). -/
theorem genSteps_spec (a : SatArgs) (t_min t_max : Int)
    (hstep : 1 ≤ a.step_rps) (hramp : 1 ≤ a.ramp_duration)
    (hdur : 0 ≤ a.step_duration) :
    List.Chain' (fun s t : StepProfile =>
        t.target_rps = s.target_rps + a.step_rps) (genSteps a t_min t_max) ∧
    List.Pairwise (fun s t : StepProfile =>
        s.target_rps < t.target_rps) (genSteps a t_min t_max) ∧
    List.Pairwise (fun s t : StepProfile =>
        s.t_end < t.t_start) (genSteps a t_min t_max) ∧
    (∀ s ∈ genSteps a t_min t_max, s.t_start ≤ s.t_end) := by
  refine ⟨?_, ?_, ?_, ?_⟩
  · rw [List.chain'_iff_get]
    intro i hi
    rw [genSteps_get a t_min t_max i (by omega),
      genSteps_get a t_min t_max (i + 1) (by omega)]
    push_cast
    ring
  · rw [List.pairwise_iff_get]
    intro i j hij
    rw [genSteps_get a t_min t_max i.1 i.2, genSteps_get a t_min t_max j.1 j.2]
    have hcast : (i.1 : Int) < (j.1 : Int) := by exact_mod_cast hij
    have := mul_lt_mul_of_pos_right hcast (show (0 : Int) < a.step_rps by omega)
    simp only
    linarith
  · rw [List.pairwise_iff_get]
    intro i j hij
    rw [genSteps_get a t_min t_max i.1 i.2, genSteps_get a t_min t_max j.1 j.2]
    have hcast : (i.1 : Int) + 1 ≤ (j.1 : Int) := by exact_mod_cast hij
    have := mul_le_mul_of_nonneg_right hcast
      (show (0 : Int) ≤ a.step_duration + a.ramp_duration by omega)
    simp only
    linarith
  · intro s hsmem
    obtain ⟨i, hi⟩ := List.mem_iff_get.mp hsmem
    rw [← hi, genSteps_get a t_min t_max i.1 i.2]
    simp only
    linarith

/-- Witness for C3 (amended) at the repository's default parameters
(start 200, increment 200, step 30 s, ramp 2 s, warm-up 10 s) on a trace
spanning seconds 100–179. -/
theorem genSteps_spec_witness :
    ((1 : Int) ≤ 200 ∧ (1 : Int) ≤ 2 ∧ (0 : Int) ≤ 30) ∧
      (List.Chain' (fun s t : StepProfile =>
          t.target_rps = s.target_rps + 200)
        (genSteps ⟨200, 200, 30, 2, 10, 1, 1000⟩ 100 179) ∧
      List.Pairwise (fun s t : StepProfile => s.target_rps < t.target_rps)
        (genSteps ⟨200, 200, 30, 2, 10, 1, 1000⟩ 100 179) ∧
      List.Pairwise (fun s t : StepProfile => s.t_end < t.t_start)
        (genSteps ⟨200, 200, 30, 2, 10, 1, 1000⟩ 100 179) ∧
      (∀ s ∈ genSteps ⟨200, 200, 30, 2, 10, 1, 1000⟩ 100 179,
          s.t_start ≤ s.t_end)) :=
  ⟨⟨by decide, by decide, by decide⟩,
    genSteps_spec ⟨200, 200, 30, 2, 10, 1, 1000⟩ 100 179
      (by decide) (by decide) (by decide)⟩

/-- One per-second bucket of relevant metric samples: the `by_second`
values of `load_k6_csv` (find-saturation.py lines 75–79). -/
structure Bucket where
  durations : List ℚ
  failed    : List ℚ
  reqs      : Nat
  deriving DecidableEq, Repr

instance : Inhabited Bucket := ⟨⟨[], [], 0⟩⟩

/-- One CSV row as seen by `load_k6_csv` (lines 81–102).  A `none` field
models the CSV header lacking that column, in which case Python's
`row.get(key, 0)` returns the integer default `0`; a `some` value models a
successfully float-parsed cell.  (Rows whose present cell fails `float()`
parsing are skipped by the `except` clause and are outside this row type.) -/
structure Row where
  metric_name  : String
  timestamp    : Option ℚ
  metric_value : Option ℚ
  deriving DecidableEq, Repr

/-- `defaultdict` bucket update: modify the bucket at key `k`, creating a
fresh bucket at the end on first touch (Python dicts keep insertion order). -/
def updateAssoc (m : List (Int × Bucket)) (k : Int) (f : Bucket → Bucket) :
    List (Int × Bucket) :=
  match m with
  | [] => [(k, f default)]
  | (k', b) :: rest =>
    if k' = k then (k', f b) :: rest else (k', b) :: updateAssoc rest k f

/-- Processing of one CSV row inside the loop of `load_k6_csv` (lines
83–102): filter to the three wanted metrics, default missing fields to 0,
truncate the timestamp to a whole second, append the sample. -/
def loadRow (m : List (Int × Bucket)) (row : Row) : List (Int × Bucket) :=
  let metric := row.metric_name.trim
  if metric = "http_req_duration" ∨ metric = "http_req_failed" ∨
      metric = "http_reqs" then
    let ts_raw := row.timestamp.getD 0
    let val := row.metric_value.getD 0
    let ts_sec := ratTrunc ts_raw
    if metric = "http_req_duration" then
      updateAssoc m ts_sec (fun b => { b with durations := b.durations ++ [val] })
    else if metric = "http_req_failed" then
      updateAssoc m ts_sec (fun b => { b with failed := b.failed ++ [val] })
    else
      updateAssoc m ts_sec (fun b => { b with reqs := b.reqs + 1 })
  else m

/-- `load_k6_csv` (lines 68–104) over the already-tokenised rows: returns
the second → bucket mapping, holding only the touched seconds. -/
def load_k6_csv (rows : List Row) : List (Int × Bucket) :=
  rows.foldl loadRow []

/-- The bucket stored at second `k`, or the empty bucket. -/
def bucketAt (k : Int) (m : List (Int × Bucket)) : Bucket :=
  (m.lookup k).getD default

/-- Python's inclusive window `range(t_start, t_end + 1)`. -/
def intRange (lo hi : Int) : List Int :=
  (List.range (hi + 1 - lo).toNat).map (fun k => lo + k)

/-- Aggregation of one step window (`aggregate_by_step`, lines 161–195):
pool durations, failure flags and request counts of every stored second in
`[t_start, t_end]`, then compute realized RPS (`req_count / step_dur` when
`step_dur > 0`, else 0), nearest-rank percentiles 50/95/99 and the error
rate (`sum(failed) / len(failed) * 100`, 0 when no failure samples).
Returns `none` when the window has no duration samples — the `continue` on
line 173/174 drops such a step from the output entirely. -/
def aggStep (by_second : List (Int × Bucket)) (step_dur : Int)
    (step : StepProfile) : Option StepStats :=
  let bs := (intRange step.t_start step.t_end).filterMap
    (fun t => by_second.lookup t)
  let durations := bs.flatMap Bucket.durations
  let failed := bs.flatMap Bucket.failed
  let req_count := (bs.map Bucket.reqs).sum
  if durations = [] then none
  else
    let sorted := sortAsc durations
    let err_rate : ℚ :=
      if failed = [] then 0 else failed.sum / (failed.length : ℚ) * 100
    let rps_real : ℚ :=
      if 0 < step_dur then (req_count : ℚ) / (step_dur : ℚ) else 0
    some {
      target_rps := step.target_rps
      rps_real := rps_real
      p50_ms := pctOfSorted sorted 50
      p95_ms := pctOfSorted sorted 95
      p99_ms := pctOfSorted sorted 99
      err_pct := err_rate
      req_count := req_count
      n_samples := sorted.length }

/-- `aggregate_by_step` (lines 110–197): empty mapping → no steps;
otherwise plan the steps from the observed span `[t_min, t_max]` and
aggregate each, dropping windows without duration samples. -/
def aggregate_by_step (by_second : List (Int × Bucket)) (a : SatArgs) :
    List StepStats :=
  match by_second.map Prod.fst with
  | [] => []
  | k :: ks =>
    let t_min := ks.foldl min k
    let t_max := ks.foldl max k
    (genSteps a t_min t_max).filterMap (aggStep by_second a.step_duration)

/-- **C5 counterexample.** For pooled failure flags `[0,0,1,0]` and pooled
durations `[10,20,30,900]` the aggregator's p50 is the value at sorted
index `int(0.5 * 4) = 2`, which is `30`, not `20`: the claim's stated rule
and its stated value contradict each other, and the code follows the rule. -/
theorem aggStep_c5_counterexample :
    ((aggStep [((0 : Int), ⟨[10, 20, 30, 900], [0, 0, 1, 0], 4⟩)] 30
        ⟨200, 0, 0⟩).map StepStats.p50_ms = some 30) ∧
      ¬ ((30 : ℚ) = 20) := by
  norm_num [aggStep, intRange, sortAsc, List.insertionSort,
    List.orderedInsert, pctOfSorted, ratTrunc, min_def, Int.toNat,
    List.lookup, List.filterMap, List.flatMap, List.range_succ,
    List.cons_ne_nil, reduceCtorEq]

/-- **C5 (amended).** For a step whose pooled failure-flag samples are
`[0,0,1,0]` and pooled duration samples `[10,20,30,900]`, the aggregator
yields `error_pct = 25`, `p50 = 30` (the sample at 0-indexed nearest-rank
index `floor(0.5 * 4) = 2`) and `p99 = 900` (the maximum sample). -/
theorem aggStep_c5_values :
    (aggStep [((0 : Int), ⟨[10, 20, 30, 900], [0, 0, 1, 0], 4⟩)] 30
        ⟨200, 0, 0⟩).map (fun s => (s.err_pct, s.p50_ms, s.p99_ms))
      = some (25, 30, 900) := by
  norm_num [aggStep, intRange, sortAsc, List.insertionSort,
    List.orderedInsert, pctOfSorted, ratTrunc, min_def, Int.toNat,
    List.lookup, List.filterMap, List.flatMap, List.range_succ,
    List.cons_ne_nil, reduceCtorEq]

/-- The C4 scenario's parameters: start 200 RPS, increment 200, step 30 s,
ramp 2 s, warm-up 10 s, thresholds 1 % / 1000 ms. -/
def c4Args : SatArgs := ⟨200, 200, 30, 2, 10, 1, 1000⟩

/-- A trace whose per-second buckets span seconds 100–179, with duration
samples present in every planned window (including second 179, inside the
third window `[174, 204]`). -/
def c4TraceFull : List (Int × Bucket) :=
  [(100, ⟨[1], [0], 1⟩), (120, ⟨[1], [0], 1⟩), (150, ⟨[1], [0], 1⟩),
   (179, ⟨[1], [0], 1⟩)]

/-- A trace whose buckets likewise span seconds 100–179, but whose last
bucket (second 179) holds only a request-count sample and no duration
samples, so the third planned window `[174, 204]` pools no durations. -/
def c4TraceSparse : List (Int × Bucket) :=
  [(100, ⟨[1], [0], 1⟩), (120, ⟨[1], [0], 1⟩), (150, ⟨[1], [0], 1⟩),
   (179, ⟨[], [], 1⟩)]

/-- **C4 counterexample.** With warm-up 10, step 30, ramp 2, start 200 and
increment 200 on a trace spanning seconds 100–179, the step generator
produces 3 steps, not 2 (the loop's span-based break fires only after a
third step, target 600 over `[174, 204]`, has been appended), and a trace
with duration samples at second 179 keeps all three steps in the
aggregated output. -/
theorem aggregate_c4_counterexample :
    (genSteps c4Args 100 179).length = 3 ∧
      ((aggregate_by_step c4TraceFull c4Args).map StepStats.target_rps
        = [200, 400, 600]) ∧
      ¬ ((3 : Nat) = 2) := by decide

/-- The duration samples pooled by a step's inclusive window `[t_start,
t_end]`: exactly the `durations` list built for the step in
`aggregate_by_step` (lines 162–171). -/
def windowDurations (by_second : List (Int × Bucket))
    (step : StepProfile) : List ℚ :=
  ((intRange step.t_start step.t_end).filterMap
    (fun t => by_second.lookup t)).flatMap Bucket.durations

theorem aggStep_eq_none_iff (bs : List (Int × Bucket)) (d : Int)
    (st : StepProfile) :
    aggStep bs d st = none ↔ windowDurations bs st = [] := by
  simp only [aggStep, windowDurations]
  split_ifs with h
  · simp [h]
  · simp [h]

theorem aggStep_some_target (bs : List (Int × Bucket)) (d : Int)
    (st : StepProfile) (s : StepStats) (h : aggStep bs d st = some s) :
    s.target_rps = st.target_rps := by
  simp only [aggStep] at h
  by_cases hcond : ((intRange st.t_start st.t_end).filterMap
      (fun t => bs.lookup t)).flatMap Bucket.durations = []
  · rw [if_pos hcond] at h
    exact absurd h (by simp)
  · rw [if_neg hcond] at h
    injection h with h2
    subst h2
    rfl

theorem filterMap_aggStep_targets (bs : List (Int × Bucket)) (d : Int) :
    ∀ steps : List StepProfile,
      ((steps.filterMap (aggStep bs d)).map StepStats.target_rps)
        = ((steps.filter
            (fun st => !(windowDurations bs st).isEmpty)).map
              StepProfile.target_rps) := by
  intro steps
  induction steps with
  | nil => simp
  | cons st rest ih =>
    by_cases hd : windowDurations bs st = []
    · have hnone : aggStep bs d st = none := (aggStep_eq_none_iff bs d st).mpr hd
      simp [List.filterMap_cons, List.filter_cons, hnone, hd, ih]
    · cases haggr : aggStep bs d st with
      | none => exact absurd ((aggStep_eq_none_iff bs d st).mp haggr) hd
      | some s =>
        have htarget := aggStep_some_target bs d st s haggr
        simp [List.filterMap_cons, List.filter_cons, haggr, hd, ih, htarget]

/-- **C4 (amended).** With the scenario's parameters on a trace spanning
seconds 100–179 the generator produces exactly 3 steps: target 200 over
`[110, 140]`, target 400 over `[142, 172]` and target 600 over
`[174, 204]`.  For *every* trace and parameters, the aggregated output
lists exactly the generated steps whose inclusive windows pool at least one
duration sample, in generation order and with their target rates — a
generated step with zero duration samples is dropped entirely.  In
particular the output has rows 200, 400, 600 on a trace with duration
samples at second 179, and exactly the claimed rows 200, 400 on a trace
whose window `[174, 204]` pools no duration samples. -/
theorem aggregate_c4_steps :
    genSteps c4Args 100 179
      = [⟨200, 110, 140⟩, ⟨400, 142, 172⟩, ⟨600, 174, 204⟩] ∧
    (∀ (by_second : List (Int × Bucket)) (a : SatArgs) (k : Int)
        (ks : List Int), by_second.map Prod.fst = k :: ks →
      (aggregate_by_step by_second a).map StepStats.target_rps
        = ((genSteps a (ks.foldl min k) (ks.foldl max k)).filter
            (fun st => !(windowDurations by_second st).isEmpty)).map
              StepProfile.target_rps) ∧
    ((aggregate_by_step c4TraceFull c4Args).map StepStats.target_rps
      = [200, 400, 600]) ∧
    ((aggregate_by_step c4TraceSparse c4Args).map StepStats.target_rps
      = [200, 400]) := by
  refine ⟨by decide, ?_, by decide, by decide⟩
  intro by_second a k ks h
  simp only [aggregate_by_step, h]
  exact filterMap_aggStep_targets by_second a.step_duration _

theorem lookup_updateAssoc (m : List (Int × Bucket)) (k : Int)
    (f : Bucket → Bucket) :
    (updateAssoc m k f).lookup k = some (f (bucketAt k m)) := by
  induction m with
  | nil => simp [updateAssoc, List.lookup, bucketAt]
  | cons p rest ih =>
    obtain ⟨k', b⟩ := p
    by_cases h : k' = k
    · subst h
      simp [updateAssoc, List.lookup, bucketAt]
    · have hbeq : (k == k') = false := by
        simp only [beq_eq_false_iff_ne]
        exact fun hh => h hh.symm
      simp only [updateAssoc, if_neg h, List.lookup, hbeq, bucketAt]
      simpa [bucketAt] using ih

/-- **C10.** If the CSV header lacks the `timestamp` column (modelled:
`row.timestamp = none`) a row carrying one of the three recognized metric
kinds is *not* skipped: `row.get('timestamp', 0)` yields the default `0`,
so the sample is appended to the bucket of Unix second 0; likewise a
missing `metric_value` column defaults the recorded value to `0`. -/
theorem load_k6_csv_missing_columns (rows : List Row) (r : Row)
    (hts : r.timestamp = none) :
    (r.metric_name.trim = "http_req_duration" →
      (bucketAt 0 (load_k6_csv (rows ++ [r]))).durations
        = (bucketAt 0 (load_k6_csv rows)).durations
          ++ [r.metric_value.getD 0]) ∧
    (r.metric_name.trim = "http_req_failed" →
      (bucketAt 0 (load_k6_csv (rows ++ [r]))).failed
        = (bucketAt 0 (load_k6_csv rows)).failed
          ++ [r.metric_value.getD 0]) ∧
    (r.metric_name.trim = "http_reqs" →
      (bucketAt 0 (load_k6_csv (rows ++ [r]))).reqs
        = (bucketAt 0 (load_k6_csv rows)).reqs + 1) ∧
    (r.metric_value = none → r.metric_value.getD 0 = 0) := by
  have hsplit : load_k6_csv (rows ++ [r]) = loadRow (load_k6_csv rows) r := by
    rw [load_k6_csv, load_k6_csv, List.foldl_append]
    rfl
  have hzero : ratTrunc (r.timestamp.getD 0) = 0 := by
    rw [hts]
    simp [ratTrunc]
  refine ⟨?_, ?_, ?_, fun h => by rw [h]; rfl⟩
  · intro hname
    rw [hsplit]
    simp [loadRow, hname, hzero, lookup_updateAssoc, bucketAt]
  · intro hname
    rw [hsplit]
    simp [loadRow, hname, hzero, lookup_updateAssoc, bucketAt]
  · intro hname
    rw [hsplit]
    simp [loadRow, hname, hzero, lookup_updateAssoc, bucketAt]

/-- Witness for C10: a lone `http_req_duration` row with both columns
missing lands in bucket 0 with value 0. -/
theorem load_k6_csv_missing_columns_witness :
    ((⟨"http_req_duration", none, none⟩ : Row).timestamp = none) ∧
    (((⟨"http_req_duration", none, none⟩ : Row).metric_name.trim
        = "http_req_duration" →
      (bucketAt 0 (load_k6_csv ([] ++ [⟨"http_req_duration", none, none⟩]))).durations
        = (bucketAt 0 (load_k6_csv [])).durations
          ++ [(⟨"http_req_duration", none, none⟩ : Row).metric_value.getD 0]) ∧
    ((⟨"http_req_duration", none, none⟩ : Row).metric_name.trim
        = "http_req_failed" →
      (bucketAt 0 (load_k6_csv ([] ++ [⟨"http_req_duration", none, none⟩]))).failed
        = (bucketAt 0 (load_k6_csv [])).failed
          ++ [(⟨"http_req_duration", none, none⟩ : Row).metric_value.getD 0]) ∧
    ((⟨"http_req_duration", none, none⟩ : Row).metric_name.trim
        = "http_reqs" →
      (bucketAt 0 (load_k6_csv ([] ++ [⟨"http_req_duration", none, none⟩]))).reqs
        = (bucketAt 0 (load_k6_csv [])).reqs + 1) ∧
    ((⟨"http_req_duration", none, none⟩ : Row).metric_value = none →
      (⟨"http_req_duration", none, none⟩ : Row).metric_value.getD 0 = 0)) :=
  ⟨rfl, load_k6_csv_missing_columns [] ⟨"http_req_duration", none, none⟩ rfl⟩

/-- The five terminal outcomes of find-saturation.py's `main`. -/
inductive MainOutcome
  | inputMissing
  | inputEmpty
  | mappingFailure
  | foundSustainable
  | noneCompliant
  deriving DecidableEq, Repr

/-- Exit status of each outcome, from `main` (find-saturation.py lines
376–413): `sys.exit(1)` on empty input (line 386) and on unmappable steps
(line 396), `sys.exit(0)` when a sustainable step exists (line 411),
`sys.exit(2)` otherwise (line 413).  A missing `--csv` file raises an
uncaught `FileNotFoundError` at `open` (line 81), which terminates the
CPython interpreter with status 1. -/
def exitCode : MainOutcome → Nat
  | .inputMissing => 1
  | .inputEmpty => 1
  | .mappingFailure => 1
  | .foundSustainable => 0
  | .noneCompliant => 2

/-- Which terminal outcome `main` reaches on a given input. -/
def classify (fileExists : Bool) (rows : List Row) (a : SatArgs) :
    MainOutcome :=
  if fileExists = false then .inputMissing
  else
    let by_second := load_k6_csv rows
    if by_second = [] then .inputEmpty
    else
      let steps := aggregate_by_step by_second a
      if steps = [] then .mappingFailure
      else if (find_saturation_point steps a.err_threshold
          a.p99_threshold).1.isSome then .foundSustainable
      else .noneCompliant

/-- Direct translation of `main`'s exit behaviour (lines 376–413). -/
def mainExitCode (fileExists : Bool) (rows : List Row) (a : SatArgs) : Nat :=
  if fileExists = false then 1
  else
    let by_second := load_k6_csv rows
    if by_second = [] then 1
    else
      let steps := aggregate_by_step by_second a
      if steps = [] then 1
      else if (find_saturation_point steps a.err_threshold
          a.p99_threshold).1.isSome then 0
      else 2

/-- **C8 counterexample.** Input-Missing and Input-Empty are distinct fatal
outcomes, yet both terminate with exit status 1 (as does Mapping-Failure),
so the fatal conditions are not mutually distinguishable by exit status. -/
theorem exitCode_c8_counterexample :
    classify false [] ⟨200, 200, 30, 2, 10, 1, 1000⟩
        = MainOutcome.inputMissing ∧
      classify true [] ⟨200, 200, 30, 2, 10, 1, 1000⟩
        = MainOutcome.inputEmpty ∧
      exitCode MainOutcome.inputMissing = exitCode MainOutcome.inputEmpty := by
  decide

/-- **C8 (amended).** `main`'s exit status is a function of its terminal
outcome: 0 when a sustainable step was found, 2 when the run completed but
no step was ever compliant — these two are mutually distinguishable and
distinguishable from every fatal status — while the three fatal conditions
(Input-Missing, Input-Empty, Mapping-Failure) all share exit status 1 and
are therefore not distinguishable from one another. -/
theorem mainExitCode_spec (fe : Bool) (rows : List Row) (a : SatArgs) :
    mainExitCode fe rows a = exitCode (classify fe rows a) ∧
    exitCode .foundSustainable = 0 ∧
    exitCode .noneCompliant = 2 ∧
    exitCode .inputMissing = 1 ∧
    exitCode .inputEmpty = 1 ∧
    exitCode .mappingFailure = 1 ∧
    exitCode .foundSustainable ≠ exitCode .noneCompliant ∧
    exitCode .foundSustainable ≠ exitCode .inputMissing ∧
    exitCode .noneCompliant ≠ exitCode .inputMissing := by
  refine ⟨?_, rfl, rfl, rfl, rfl, rfl, by decide, by decide, by decide⟩
  simp only [mainExitCode, classify]
  split_ifs <;> rfl

/-- One benchmark repetition of one variant: a parsed row of summary.csv
(`load_summary`, analyze-results.py lines 99–113). -/
structure RunRec where
  run         : Nat
  rps         : ℚ
  p50_ms      : ℚ
  p95_ms      : ℚ
  p99_ms      : ℚ
  error_rate  : ℚ
  energy_uj   : ℚ
  elapsed_ms  : ℚ
  power_watts : ℚ
  cpu_pct     : ℚ
  mem_mb      : ℚ
  deriving DecidableEq, Repr

/-- `statistics.median`: the middle element of the sorted data for odd
sizes, the mean of the two middle elements for even sizes.  (Python raises
on empty data; every call site passes at least one run, and the model
returns 0 there.) -/
def median (xs : List ℚ) : ℚ :=
  let s := sortAsc xs
  let n := s.length
  if n = 0 then 0
  else if n % 2 = 1 then s.getD (n / 2) 0
  else (s.getD (n / 2 - 1) 0 + s.getD (n / 2) 0) / 2

/-- The square of `statistics.stdev` (the *sample* standard deviation):
Bessel-corrected variance `Σ (x − mean)² / (n − 1)`.  `stdev` itself is an
irrational square root in general, so the model tracks its square; two
non-negative reals are equal iff their squares are. -/
def stdevSq (xs : List ℚ) : ℚ :=
  let n : ℚ := xs.length
  let m := xs.sum / n
  ((xs.map (fun x => (x - m) ^ 2)).sum) / (n - 1)

/-- `AWS_T3_MEDIUM_USD_PER_HOUR = 0.0416` (analyze-results.py line 62). -/
def AWS_T3_MEDIUM_USD_PER_HOUR : ℚ := 416 / 10000

/-- Per-variant metrics dict of `compute_metrics` (lines 175–195); the two
standard deviations are tracked as their squares (see `stdevSq`), and the
`raw_*` lists (consumed only by the optional scipy significance tests) are
omitted. -/
structure VariantMetrics where
  rps_median     : ℚ
  rps_std_sq     : ℚ
  p50_ms         : ℚ
  p95_ms         : ℚ
  p99_ms         : ℚ
  power_watts    : ℚ
  power_std_sq   : ℚ
  net_power_w    : ℚ
  cpu_pct        : ℚ
  mem_mb         : ℚ
  error_rate_pct : ℚ
  rps_extrap     : ℚ
  rps_per_watt   : ℚ
  rps_per_usd    : ℚ
  rapl_available : Bool
  n_runs         : Nat
  deriving DecidableEq, Repr

/-- The body of `compute_metrics` for one variant (lines 135–195): medians
and (squared) standard deviations of the run samples, net power with
baseline subtraction, floor 0.001 and the CPU-proxy substitution when the
measured power median is exactly 0, RPS/Watt, CPU-extrapolated RPS and
RPS/USD. -/
def compute_variant (runs : List RunRec) (baseline_power_w : ℚ) :
    VariantMetrics :=
  let rps_list := runs.map RunRec.rps
  let power_list := runs.map RunRec.power_watts
  let cpu_list := runs.map RunRec.cpu_pct
  let rps_med := median rps_list
  let power_med := median power_list
  let cpu_med := median cpu_list
  let rps_std_sq := if 1 < rps_list.length then stdevSq rps_list else 0
  let power_std_sq := if 1 < power_list.length then stdevSq power_list else 0
  let net0 := max (power_med - baseline_power_w) (1 / 1000)
  let net_power_w :=
    if power_med = 0 then max (cpu_med * (1 / 100) * 1) (1 / 1000) else net0
  let rapl_available := if power_med = 0 then false else true
  let rps_per_watt := rps_med / net_power_w
  let rps_extrap :=
    if 0 < cpu_med then rps_med * (100 / cpu_med) else rps_med
  let rps_per_usd := rps_extrap / AWS_T3_MEDIUM_USD_PER_HOUR
  { rps_median     := rps_med
    rps_std_sq     := rps_std_sq
    p50_ms         := median (runs.map RunRec.p50_ms)
    p95_ms         := median (runs.map RunRec.p95_ms)
    p99_ms         := median (runs.map RunRec.p99_ms)
    power_watts    := power_med
    power_std_sq   := power_std_sq
    net_power_w    := net_power_w
    cpu_pct        := cpu_med
    mem_mb         := median (runs.map RunRec.mem_mb)
    error_rate_pct := median (runs.map RunRec.error_rate)
    rps_extrap     := rps_extrap
    rps_per_watt   := rps_per_watt
    rps_per_usd    := rps_per_usd
    rapl_available := rapl_available
    n_runs         := runs.length }

/-- `compute_metrics` (lines 131–197): one metrics record per variant, in
input order. -/
def compute_metrics (data : List (String × List RunRec)) (baseline : ℚ) :
    List (String × VariantMetrics) :=
  data.map (fun fw => (fw.1, compute_variant fw.2 baseline))

/-- `rank` (lines 203–205): variant names sorted descending by the chosen
metric — `sorted(..., reverse=True)`, a stable descending sort, modelled by
the stable insertion sort on the reversed comparison. -/
def rank (metrics : List (String × VariantMetrics))
    (key : VariantMetrics → ℚ) : List String :=
  (metrics.insertionSort (fun a b => key b.2 ≤ key a.2)).map Prod.fst

/-- The "rankings diverge" hypothesis signal (`format_table`, line 277):
true iff the throughput ranking differs from the RPS/Watt ranking or from
the RPS/USD ranking. -/
def hypothesis_confirmed
    (metrics : List (String × VariantMetrics)) : Bool :=
  let rank_rps := rank metrics VariantMetrics.rps_median
  let rank_rpsw := rank metrics VariantMetrics.rps_per_watt
  let rank_rpsusd := rank metrics VariantMetrics.rps_per_usd
  decide (rank_rps ≠ rank_rpsw) || decide (rank_rps ≠ rank_rpsusd)

/-- **C6.** For every variant: net power is `max(median power − baseline,
ε)` with `ε = 0.001`, except that when the median measured power is exactly
zero it is `max(median CPU% · 0.01, ε)` and the variant is flagged as
lacking power instrumentation; RPS/Watt (metric A) is median throughput /
net power; extrapolated throughput is median throughput · (100 / median
CPU%) when median CPU% > 0 and the unchanged median throughput otherwise;
RPS/USD (metric B) is extrapolated throughput / the fixed hourly cost
constant. -/
theorem compute_variant_spec (runs : List RunRec) (baseline : ℚ) :
    (median (runs.map RunRec.power_watts) = 0 →
      (compute_variant runs baseline).net_power_w
        = max (median (runs.map RunRec.cpu_pct) * (1 / 100)) (1 / 1000) ∧
      (compute_variant runs baseline).rapl_available = false) ∧
    (median (runs.map RunRec.power_watts) ≠ 0 →
      (compute_variant runs baseline).net_power_w
        = max (median (runs.map RunRec.power_watts) - baseline) (1 / 1000) ∧
      (compute_variant runs baseline).rapl_available = true) ∧
    (compute_variant runs baseline).rps_per_watt
      = (compute_variant runs baseline).rps_median
        / (compute_variant runs baseline).net_power_w ∧
    (0 < median (runs.map RunRec.cpu_pct) →
      (compute_variant runs baseline).rps_extrap
        = (compute_variant runs baseline).rps_median
          * (100 / median (runs.map RunRec.cpu_pct))) ∧
    (¬ 0 < median (runs.map RunRec.cpu_pct) →
      (compute_variant runs baseline).rps_extrap
        = (compute_variant runs baseline).rps_median) ∧
    (compute_variant runs baseline).rps_per_usd
      = (compute_variant runs baseline).rps_extrap
        / AWS_T3_MEDIUM_USD_PER_HOUR := by
  refine ⟨fun hp => ⟨?_, ?_⟩, fun hp => ⟨?_, ?_⟩, ?_, fun hc => ?_,
    fun hc => ?_, ?_⟩
  · simp [compute_variant, hp]
  · simp [compute_variant, hp]
  · simp [compute_variant, hp]
  · simp [compute_variant, hp]
  · simp [compute_variant]
  · simp [compute_variant, hc]
  · simp [compute_variant, hc]
  · simp [compute_variant]

/-- Population variance, following the spec's words ("population standard
deviation", squared): the mean squared deviation `Σ (x − mean)² / n`. -/
def popVarianceSpec (xs : List ℚ) : ℚ :=
  let n : ℚ := xs.length
  let m := xs.sum / n
  ((xs.map (fun x => (x - m) ^ 2)).sum) / n

/-- Sample (Bessel-corrected) variance in sum-of-squares form, written
independently of the code's `Σ (x − mean)² / (n − 1)` loop shape. -/
def sampleVarianceAlt (xs : List ℚ) : ℚ :=
  let n : ℚ := xs.length
  (n * (xs.map (fun x => x ^ 2)).sum - xs.sum ^ 2) / (n * (n - 1))

theorem sum_sq_dev (xs : List ℚ) (m : ℚ) :
    (xs.map (fun x => (x - m) ^ 2)).sum
      = (xs.map (fun x => x ^ 2)).sum - 2 * m * xs.sum
        + (xs.length : ℚ) * m ^ 2 := by
  induction xs with
  | nil => simp
  | cons x l ih =>
    simp only [List.map_cons, List.sum_cons, ih, List.length_cons]
    push_cast
    ring

theorem stdevSq_eq_alt (xs : List ℚ) (h : 2 ≤ xs.length) :
    stdevSq xs = sampleVarianceAlt xs := by
  have hn : (xs.length : ℚ) ≠ 0 := by
    have : (2 : ℚ) ≤ (xs.length : ℚ) := by exact_mod_cast h
    linarith
  have hn1 : (xs.length : ℚ) - 1 ≠ 0 := by
    have : (2 : ℚ) ≤ (xs.length : ℚ) := by exact_mod_cast h
    intro hzero
    linarith
  simp only [stdevSq, sampleVarianceAlt]
  rw [sum_sq_dev]
  field_simp
  ring

/-- A run record carrying only a throughput sample (all other fields 0),
used to exhibit the standard-deviation divergence. -/
def c9Run (r : ℚ) : RunRec := ⟨0, r, 0, 0, 0, 0, 0, 0, 0, 0, 0⟩

/-- **C9 counterexample.** For a variant with two runs of throughput 0 and
2, the code (`statistics.stdev`) reports the *sample* standard deviation
`√2` — its square is 2 — while the population standard deviation is 1 —
its square is 1.  Both are non-negative, so differing squares mean the
reported value differs from the population value the claim asserts. -/
theorem stdev_c9_counterexample :
    (compute_variant [c9Run 0, c9Run 2] 0).rps_std_sq = 2 ∧
      popVarianceSpec [0, 2] = 1 ∧ ¬ ((2 : ℚ) = 1) := by
  norm_num [compute_variant, stdevSq, popVarianceSpec, c9Run]

/-- **C9 (amended).** For every variant, the reported standard deviation of
throughput and of power draw is the *sample* (Bessel-corrected, divisor
`n − 1`) standard deviation of that variant's run samples when the variant
has at least 2 runs, and 0 otherwise; stated on squares, with the sample
variance written in independent sum-of-squares form
`(n·Σx² − (Σx)²) / (n(n−1))`. -/
theorem compute_variant_std (runs : List RunRec) (baseline : ℚ) :
    (compute_variant runs baseline).rps_std_sq
      = (if 1 < runs.length then sampleVarianceAlt (runs.map RunRec.rps)
          else 0) ∧
    (compute_variant runs baseline).power_std_sq
      = (if 1 < runs.length then
          sampleVarianceAlt (runs.map RunRec.power_watts) else 0) := by
  constructor
  · by_cases h : 1 < runs.length
    · rw [if_pos h]
      simp only [compute_variant]
      rw [if_pos (by simpa using h)]
      exact stdevSq_eq_alt _ (by simpa using h)
    · rw [if_neg h]
      simp only [compute_variant]
      rw [if_neg (by simpa using h)]
  · by_cases h : 1 < runs.length
    · rw [if_pos h]
      simp only [compute_variant]
      rw [if_pos (by simpa using h)]
      exact stdevSq_eq_alt _ (by simpa using h)
    · rw [if_neg h]
      simp only [compute_variant]
      rw [if_neg (by simpa using h)]

/-- A run record with the given throughput, power 10 W and CPU 50 % (other
fields 0), for the ranking-coincidence scenario. -/
def c7Run (r : ℚ) : RunRec := ⟨0, r, 0, 0, 0, 0, 0, 0, 10, 50, 0⟩

/-- Three variants with throughputs 100/200/300, identical power 10 W and
identical CPU 50 %. -/
def c7Data : List (String × List RunRec) :=
  [("a", [c7Run 100]), ("b", [c7Run 200]), ("c", [c7Run 300])]

/-- **C7.** The "rankings diverge" flag is true iff the descending ranking
by median throughput differs from the descending ranking by RPS/Watt or
from the descending ranking by RPS/USD; and for three variants with
throughputs 100/200/300, identical net power 10 (baseline 0) and CPU 50 %
each, all three rankings coincide and the flag is false. -/
theorem hypothesis_confirmed_spec :
    (∀ metrics : List (String × VariantMetrics),
      hypothesis_confirmed metrics = true ↔
        (rank metrics VariantMetrics.rps_median
            ≠ rank metrics VariantMetrics.rps_per_watt ∨
          rank metrics VariantMetrics.rps_median
            ≠ rank metrics VariantMetrics.rps_per_usd)) ∧
    rank (compute_metrics c7Data 0) VariantMetrics.rps_median
      = ["c", "b", "a"] ∧
    rank (compute_metrics c7Data 0) VariantMetrics.rps_per_watt
      = ["c", "b", "a"] ∧
    rank (compute_metrics c7Data 0) VariantMetrics.rps_per_usd
      = ["c", "b", "a"] ∧
    hypothesis_confirmed (compute_metrics c7Data 0) = false := by
  refine ⟨?_, ?_, ?_, ?_, ?_⟩
  · intro metrics
    simp [hypothesis_confirmed]
  · norm_num [rank, compute_metrics, compute_variant, c7Data, c7Run,
      median, sortAsc, List.insertionSort, List.orderedInsert,
      AWS_T3_MEDIUM_USD_PER_HOUR]
  · norm_num [rank, compute_metrics, compute_variant, c7Data, c7Run,
      median, sortAsc, List.insertionSort, List.orderedInsert,
      AWS_T3_MEDIUM_USD_PER_HOUR]
  · norm_num [rank, compute_metrics, compute_variant, c7Data, c7Run,
      median, sortAsc, List.insertionSort, List.orderedInsert,
      AWS_T3_MEDIUM_USD_PER_HOUR]
  · norm_num [hypothesis_confirmed, rank, compute_metrics, compute_variant,
      c7Data, c7Run, median, sortAsc, List.insertionSort,
      List.orderedInsert, AWS_T3_MEDIUM_USD_PER_HOUR]

end WFB
